import Mathlib

/-!
Shallow embedding of the pixel-format normalization and JPEG-encoding dispatch
engine of `src/src/lib.rs` (function `rgb_to_jpeg`).

Modelling conventions:
* Bytes are carried as `Nat`; the engine only moves bytes, it never computes
  with their values, so the carrier is faithful.
* `u32` widths and heights and `usize` sizes are carried as `Nat`.  For u32
  dimensions the products `width * height`, `width * 3`, `width * 4` and the
  division by 2 always fit in 64 bits, but the NV12 sum `y_size + uv_size`
  can exceed 2^64 - 1 (it does whenever `width * height ≥ ceil(2^65 / 3)`),
  so two NV12 models are given: `nv12_to_yuv420` uses exact natural
  arithmetic and `nv12_to_yuv420_usize` (with `rgb_to_jpeg_usize`) uses the
  wrapping 64-bit usize arithmetic of a release build.  They coincide
  whenever `y_size + uv_size < 2^64` (`nv12_to_yuv420_usize_eq`); a debug
  build instead panics at the overflowing addition, so on the frames where
  the two models disagree the program crashes or wraps in every profile.
* The external turbojpeg compressor is an injected record of two functions
  (packed-pixel path and planar path), mirroring the two calls
  `compress_to_vec` and `compress_yuv_to_vec`.  Its output bytes are opaque.
* Rust panics (slice range out of bounds, index out of bounds) are modelled as
  a distinguished `ConvError.panicked` value, so that panic-freedom is a
  provable statement about the embedding.
* The metadata header is opaque pass-through data; the embedding is
  polymorphic in the header type `α`.
-/

namespace RawToJpeg

/-- A byte of pixel data (a u8 value, only ever moved, never computed with). -/
abbrev Byte := Nat

/-- make87_messages `ImageRgb888`: embedded optional header, width, height, bytes. -/
structure ImageRgb888 (α : Type) where
  header : Option α
  width : Nat
  height : Nat
  data : List Byte

/-- make87_messages `ImageRgba8888`. -/
structure ImageRgba8888 (α : Type) where
  header : Option α
  width : Nat
  height : Nat
  data : List Byte

/-- make87_messages `ImageYuv420`. -/
structure ImageYuv420 (α : Type) where
  header : Option α
  width : Nat
  height : Nat
  data : List Byte

/-- make87_messages `ImageYuv422`. -/
structure ImageYuv422 (α : Type) where
  header : Option α
  width : Nat
  height : Nat
  data : List Byte

/-- make87_messages `ImageYuv444`. -/
structure ImageYuv444 (α : Type) where
  header : Option α
  width : Nat
  height : Nat
  data : List Byte

/-- make87_messages `ImageNv12`. -/
structure ImageNv12 (α : Type) where
  header : Option α
  width : Nat
  height : Nat
  data : List Byte

/-- The tagged union `image_raw_any::Image` of the six pixel layouts. -/
inductive RawImageVariant (α : Type) where
  | rgb888 : ImageRgb888 α → RawImageVariant α
  | rgba8888 : ImageRgba8888 α → RawImageVariant α
  | yuv420 : ImageYuv420 α → RawImageVariant α
  | yuv422 : ImageYuv422 α → RawImageVariant α
  | yuv444 : ImageYuv444 α → RawImageVariant α
  | nv12 : ImageNv12 α → RawImageVariant α

/-- make87_messages `ImageRawAny`: top-level optional header and optional variant. -/
structure ImageRawAny (α : Type) where
  header : Option α
  image : Option (RawImageVariant α)

/-- make87_messages `ImageJpeg`: the output record (header pass-through + bytes). -/
structure ImageJpeg (α : Type) where
  header : Option α
  data : List Byte

/-- turbojpeg `PixelFormat` (the two members used by the source). -/
inductive PixelFormat where
  | RGB
  | RGBA

/-- turbojpeg `Subsamp` (the three members used by the source). -/
inductive Subsamp where
  | Sub2x2
  | Sub2x1
  | none

/-- turbojpeg `Image`: a packed-pixel buffer with geometry. -/
structure Image where
  pixels : List Byte
  width : Nat
  pitch : Nat
  height : Nat
  format : PixelFormat

/-- turbojpeg `YuvImage`: a planar YUV buffer with geometry. -/
structure YuvImage where
  pixels : List Byte
  width : Nat
  align : Nat
  height : Nat
  subsamp : Subsamp

/-- The error taxonomy of the conversion.  The first three correspond to the
`anyhow` errors of the source and the propagated codec failure; `panicked`
models a Rust panic (out-of-bounds slice or index), which is not a returned
error in Rust but must be representable to state panic-freedom. -/
inductive ConvError where
  | insufficientData (expected got : Nat)
  | unsupportedLayout
  | encodeFailure (msg : String)
  | panicked

/-- The injected compression capability: the two turbojpeg entry points used by
the source, with opaque output bytes.  A single conversion performs at most one
call, so the internal mutable codec state is not observable and the functions
are modelled as pure. -/
structure Compressor where
  compressToVec : Image → Except String (List Byte)
  compressYuvToVec : YuvImage → Except String (List Byte)

/-- Rust slice `&data[lo..hi]`: panics when the range is out of bounds. -/
def sliceRange (data : List Byte) (lo hi : Nat) : Except ConvError (List Byte) :=
  if lo ≤ hi ∧ hi ≤ data.length then .ok ((data.drop lo).take (hi - lo))
  else .error .panicked

/-- The Rust iterator `(start..stop).step_by step`: the indices `start`,
`start + step`, ... strictly below `stop`; their count is
`ceil((stop - start) / step)`. -/
def rangeStepBy (start stop step : Nat) : List Nat :=
  List.range' start ((stop - start + (step - 1)) / step) step

/-- The loop `for i in idxs { out.push(plane[i]) }` with fallible indexing:
an out-of-bounds index is a Rust panic. -/
def pushLoop (plane : List Byte) (idxs : List Nat) (acc : List Byte) :
    Except ConvError (List Byte) :=
  match idxs with
  | [] => .ok acc
  | i :: rest =>
    match plane.get? i with
    | some b => pushLoop plane rest (acc ++ [b])
    | Option.none => .error .panicked

/-- Lines 98-127 of `src/src/lib.rs`: the NV12 arm up to the normalized planar
YUV420 buffer.  Computes `y_size = width * height` and `uv_size = y_size / 2`,
checks the buffer length, copies the Y plane, then appends the even-offset
bytes of the UV region (U samples) and the odd-offset bytes (V samples).
This version uses exact natural arithmetic; it agrees with the usize-faithful
`nv12_to_yuv420_usize` exactly when `y_size + uv_size < 2^64`. -/
def nv12_to_yuv420 (width height : Nat) (nv12_data : List Byte) :
    Except ConvError (List Byte) :=
  let y_size := width * height
  let uv_size := y_size / 2
  if nv12_data.length < y_size + uv_size then
    .error (.insufficientData (y_size + uv_size) nv12_data.length)
  else
    match sliceRange nv12_data 0 y_size with
    | .error e => .error e
    | .ok yPlane =>
      match sliceRange nv12_data y_size (y_size + uv_size) with
      | .error e => .error e
      | .ok uv_plane =>
        match pushLoop uv_plane (rangeStepBy 0 uv_size 2) yPlane with
        | .error e => .error e
        | .ok withU =>
          match pushLoop uv_plane (rangeStepBy 1 uv_size 2) withU with
          | .error e => .error e
          | .ok yuv420_data => .ok yuv420_data

/-- The conversion entry point `rgb_to_jpeg` of `src/src/lib.rs`: dispatch on
the variant, derive geometry, call the matching compressor path, and build the
output record with the top-level header cloned through. -/
def rgb_to_jpeg {α : Type} (rgb_any : ImageRawAny α) (compressor : Compressor) :
    Except ConvError (ImageJpeg α) :=
  match rgb_any.image with
  | some (.rgb888 rgb888) =>
    match compressor.compressToVec
        { pixels := rgb888.data, width := rgb888.width, pitch := rgb888.width * 3,
          height := rgb888.height, format := .RGB } with
    | .ok jpeg_data => .ok { header := rgb_any.header, data := jpeg_data }
    | .error e => .error (.encodeFailure e)
  | some (.rgba8888 rgba8888) =>
    match compressor.compressToVec
        { pixels := rgba8888.data, width := rgba8888.width, pitch := rgba8888.width * 4,
          height := rgba8888.height, format := .RGBA } with
    | .ok jpeg_data => .ok { header := rgb_any.header, data := jpeg_data }
    | .error e => .error (.encodeFailure e)
  | some (.yuv420 yuv420) =>
    match compressor.compressYuvToVec
        { pixels := yuv420.data, width := yuv420.width, align := 1,
          height := yuv420.height, subsamp := .Sub2x2 } with
    | .ok jpeg_data => .ok { header := rgb_any.header, data := jpeg_data }
    | .error e => .error (.encodeFailure e)
  | some (.yuv422 yuv422) =>
    match compressor.compressYuvToVec
        { pixels := yuv422.data, width := yuv422.width, align := 1,
          height := yuv422.height, subsamp := .Sub2x1 } with
    | .ok jpeg_data => .ok { header := rgb_any.header, data := jpeg_data }
    | .error e => .error (.encodeFailure e)
  | some (.yuv444 yuv444) =>
    match compressor.compressYuvToVec
        { pixels := yuv444.data, width := yuv444.width, align := 1,
          height := yuv444.height, subsamp := .none } with
    | .ok jpeg_data => .ok { header := rgb_any.header, data := jpeg_data }
    | .error e => .error (.encodeFailure e)
  | some (.nv12 nv12) =>
    match nv12_to_yuv420 nv12.width nv12.height nv12.data with
    | .error e => .error e
    | .ok yuv420_data =>
      match compressor.compressYuvToVec
          { pixels := yuv420_data, width := nv12.width, align := 1,
            height := nv12.height, subsamp := .Sub2x2 } with
      | .ok jpeg_data => .ok { header := rgb_any.header, data := jpeg_data }
      | .error e => .error (.encodeFailure e)
  | Option.none => .error .unsupportedLayout

/-- The bytes at even offsets of a list (offsets 0, 2, 4, ...). -/
def evens : List Byte → List Byte
  | [] => []
  | [a] => [a]
  | a :: _ :: rest => a :: evens rest

/-- The bytes at odd offsets of a list (offsets 1, 3, 5, ...). -/
def odds : List Byte → List Byte
  | [] => []
  | [_] => []
  | _ :: b :: rest => b :: odds rest

/-- Byte-interleave of two equal-length planes: `[U0, V0, U1, V1, ...]`. -/
def interleave : List Byte → List Byte → List Byte
  | u :: us, v :: vs => u :: v :: interleave us vs
  | _, _ => []

/-- A compressor stub whose two paths both succeed with the fixed bytes
[255, 216] (the JPEG start-of-image marker), used for concrete scenarios. -/
def okCompressor : Compressor where
  compressToVec := fun _ => .ok [255, 216]
  compressYuvToVec := fun _ => .ok [255, 216]

/-- Replace the header embedded in the selected variant record, leaving the
top-level header and all pixel data untouched. -/
def setVariantHeader {α : Type} (frame : ImageRawAny α) (h2 : Option α) : ImageRawAny α :=
  { frame with
    image := frame.image.map fun v =>
      match v with
      | .rgb888 img => .rgb888 { img with header := h2 }
      | .rgba8888 img => .rgba8888 { img with header := h2 }
      | .yuv420 img => .yuv420 { img with header := h2 }
      | .yuv422 img => .yuv422 { img with header := h2 }
      | .yuv444 img => .yuv444 { img with header := h2 }
      | .nv12 img => .nv12 { img with header := h2 } }

/-- The 64-bit usize modulus of the deployed target. -/
def USIZE : Nat := 2 ^ 64

/-- The expected byte count computed by the NV12 length check under release
usize semantics: `y_size + uv_size` with every usize operation taken mod 2^64.
Only the final addition can actually wrap for u32 dimensions. -/
def nv12TotalUsize (width height : Nat) : Nat :=
  (width * height % USIZE + width * height % USIZE / 2) % USIZE

/-- Lines 98-127 of `src/src/lib.rs` under release-build usize semantics: the
additions `y_size + uv_size` (length check, line 106, and UV slice bound,
line 117) wrap mod 2^64.  For u32 dimensions `width * height` itself always
fits in 64 bits, so only those sums can wrap; a debug build panics at the
first of them instead.  When the sum does not overflow this definition equals
`nv12_to_yuv420` (`nv12_to_yuv420_usize_eq`). -/
def nv12_to_yuv420_usize (width height : Nat) (nv12_data : List Byte) :
    Except ConvError (List Byte) :=
  let y_size := width * height % USIZE
  let uv_size := y_size / 2
  let total := (y_size + uv_size) % USIZE
  if nv12_data.length < total then
    .error (.insufficientData total nv12_data.length)
  else
    match sliceRange nv12_data 0 y_size with
    | .error e => .error e
    | .ok yPlane =>
      match sliceRange nv12_data y_size total with
      | .error e => .error e
      | .ok uv_plane =>
        match pushLoop uv_plane (rangeStepBy 0 uv_size 2) yPlane with
        | .error e => .error e
        | .ok withU =>
          match pushLoop uv_plane (rangeStepBy 1 uv_size 2) withU with
          | .error e => .error e
          | .ok yuv420_data => .ok yuv420_data

/-- `rgb_to_jpeg` under release-build usize semantics: identical to
`rgb_to_jpeg` except that the NV12 arm performs its size arithmetic in
wrapping 64-bit usize (`nv12_to_yuv420_usize`).  The other five arms involve
no arithmetic that can overflow for u32 dimensions. -/
def rgb_to_jpeg_usize {α : Type} (rgb_any : ImageRawAny α) (compressor : Compressor) :
    Except ConvError (ImageJpeg α) :=
  match rgb_any.image with
  | some (.rgb888 rgb888) =>
    match compressor.compressToVec
        { pixels := rgb888.data, width := rgb888.width, pitch := rgb888.width * 3,
          height := rgb888.height, format := .RGB } with
    | .ok jpeg_data => .ok { header := rgb_any.header, data := jpeg_data }
    | .error e => .error (.encodeFailure e)
  | some (.rgba8888 rgba8888) =>
    match compressor.compressToVec
        { pixels := rgba8888.data, width := rgba8888.width, pitch := rgba8888.width * 4,
          height := rgba8888.height, format := .RGBA } with
    | .ok jpeg_data => .ok { header := rgb_any.header, data := jpeg_data }
    | .error e => .error (.encodeFailure e)
  | some (.yuv420 yuv420) =>
    match compressor.compressYuvToVec
        { pixels := yuv420.data, width := yuv420.width, align := 1,
          height := yuv420.height, subsamp := .Sub2x2 } with
    | .ok jpeg_data => .ok { header := rgb_any.header, data := jpeg_data }
    | .error e => .error (.encodeFailure e)
  | some (.yuv422 yuv422) =>
    match compressor.compressYuvToVec
        { pixels := yuv422.data, width := yuv422.width, align := 1,
          height := yuv422.height, subsamp := .Sub2x1 } with
    | .ok jpeg_data => .ok { header := rgb_any.header, data := jpeg_data }
    | .error e => .error (.encodeFailure e)
  | some (.yuv444 yuv444) =>
    match compressor.compressYuvToVec
        { pixels := yuv444.data, width := yuv444.width, align := 1,
          height := yuv444.height, subsamp := .none } with
    | .ok jpeg_data => .ok { header := rgb_any.header, data := jpeg_data }
    | .error e => .error (.encodeFailure e)
  | some (.nv12 nv12) =>
    match nv12_to_yuv420_usize nv12.width nv12.height nv12.data with
    | .error e => .error e
    | .ok yuv420_data =>
      match compressor.compressYuvToVec
          { pixels := yuv420_data, width := nv12.width, align := 1,
            height := nv12.height, subsamp := .Sub2x2 } with
      | .ok jpeg_data => .ok { header := rgb_any.header, data := jpeg_data }
      | .error e => .error (.encodeFailure e)
  | Option.none => .error .unsupportedLayout

theorem pushLoop_shift (a b : Byte) (l : List Byte) :
    ∀ (n s : Nat) (acc : List Byte),
      pushLoop (a :: b :: l) (List.range' (s + 2) n 2) acc =
        pushLoop l (List.range' s n 2) acc
  | 0, _, _ => rfl
  | n + 1, s, acc => by
    rw [List.range'_succ, List.range'_succ]
    simp only [pushLoop]
    have hget : (a :: b :: l).get? (s + 2) = l.get? s := by
      simp [List.get?]
    rw [hget]
    cases hl : l.get? s with
    | none => rfl
    | some x => exact pushLoop_shift a b l n (s + 2) (acc ++ [x])

theorem pushLoop_evens :
    ∀ (l acc : List Byte), pushLoop l (rangeStepBy 0 l.length 2) acc = .ok (acc ++ evens l)
  | [], acc => by simp [rangeStepBy, pushLoop, evens]
  | [a], acc => by simp [rangeStepBy, pushLoop, evens, List.range']
  | a :: b :: rest, acc => by
    have hcount : (a :: b :: rest).length - 0 + (2 - 1) = (rest.length + 1) + 2 := by
      simp [List.length_cons]
    have hdiv : ((rest.length + 1) + 2) / 2 = (rest.length + 1) / 2 + 1 := by omega
    rw [rangeStepBy, hcount, hdiv, List.range'_succ]
    simp only [pushLoop, List.get?]
    rw [show (0 : Nat) + 2 = 0 + 2 from rfl]
    rw [pushLoop_shift a b rest ((rest.length + 1) / 2) 0 (acc ++ [a])]
    have ih := pushLoop_evens rest (acc ++ [a])
    rw [rangeStepBy] at ih
    simp only [Nat.sub_zero] at ih
    rw [ih]
    simp [evens]

theorem pushLoop_odds :
    ∀ (l acc : List Byte), pushLoop l (rangeStepBy 1 l.length 2) acc = .ok (acc ++ odds l)
  | [], acc => by simp [rangeStepBy, pushLoop, odds]
  | [a], acc => by simp [rangeStepBy, pushLoop, odds, List.range']
  | a :: b :: rest, acc => by
    have hcount : ((a :: b :: rest).length - 1 + (2 - 1)) / 2 = rest.length / 2 + 1 := by
      simp [List.length_cons]; omega
    rw [rangeStepBy, hcount, List.range'_succ]
    simp only [pushLoop, List.get?]
    rw [show (1 : Nat) + 2 = 1 + 2 from rfl]
    rw [pushLoop_shift a b rest (rest.length / 2) 1 (acc ++ [b])]
    have ih := pushLoop_odds rest (acc ++ [b])
    rw [rangeStepBy] at ih
    have hc2 : (rest.length - 1 + (2 - 1)) / 2 = rest.length / 2 := by omega
    rw [hc2] at ih
    rw [ih]
    simp [odds]

theorem evens_interleave :
    ∀ (U V : List Byte), U.length = V.length → evens (interleave U V) = U
  | [], [], _ => rfl
  | [], _ :: _, h => by simp at h
  | _ :: _, [], h => by simp at h
  | u :: us, v :: vs, h => by
    simp only [interleave, evens]
    rw [evens_interleave us vs (by simpa using h)]

theorem odds_interleave :
    ∀ (U V : List Byte), U.length = V.length → odds (interleave U V) = V
  | [], [], _ => rfl
  | [], _ :: _, h => by simp at h
  | _ :: _, [], h => by simp at h
  | u :: us, v :: vs, h => by
    simp only [interleave, odds]
    rw [odds_interleave us vs (by simpa using h)]

theorem length_interleave :
    ∀ (U V : List Byte), U.length = V.length →
      (interleave U V).length = U.length + V.length
  | [], [], _ => rfl
  | [], _ :: _, h => by simp at h
  | _ :: _, [], h => by simp at h
  | u :: us, v :: vs, h => by
    simp only [interleave, List.length_cons]
    rw [length_interleave us vs (by simpa using h)]
    omega

theorem evens_length : ∀ (l : List Byte), (evens l).length = (l.length + 1) / 2
  | [] => rfl
  | [_] => by simp [evens]
  | _ :: _ :: rest => by
    simp only [evens, List.length_cons, evens_length rest]
    omega

theorem odds_length : ∀ (l : List Byte), (odds l).length = l.length / 2
  | [] => rfl
  | [_] => by simp [odds]
  | _ :: _ :: rest => by
    simp only [odds, List.length_cons, odds_length rest]
    omega

/-- Master characterization of the NV12 normalization under the length check:
the result is the Y plane (first `y_size` bytes), then the even-offset bytes of
the UV region, then its odd-offset bytes. -/
theorem nv12_to_yuv420_ok (width height : Nat) (data : List Byte)
    (h : width * height + width * height / 2 ≤ data.length) :
    nv12_to_yuv420 width height data =
      .ok (data.take (width * height)
        ++ evens ((data.drop (width * height)).take (width * height / 2))
        ++ odds ((data.drop (width * height)).take (width * height / 2))) := by
  have hnot : ¬ data.length < width * height + width * height / 2 := by omega
  rw [nv12_to_yuv420]
  simp only [hnot, if_false]
  have hs1 : sliceRange data 0 (width * height) = .ok (data.take (width * height)) := by
    rw [sliceRange, if_pos ⟨Nat.zero_le _, by omega⟩]
    simp
  have hs2 : sliceRange data (width * height) (width * height + width * height / 2)
      = .ok ((data.drop (width * height)).take (width * height / 2)) := by
    rw [sliceRange, if_pos ⟨by omega, by omega⟩]
    simp
  simp only [hs1, hs2]
  have hlen : ((data.drop (width * height)).take (width * height / 2)).length
      = width * height / 2 := by
    simp [List.length_take, List.length_drop]
    omega
  have he := pushLoop_evens ((data.drop (width * height)).take (width * height / 2))
    (data.take (width * height))
  rw [hlen] at he
  simp only [he]
  have ho := pushLoop_odds ((data.drop (width * height)).take (width * height / 2))
    (data.take (width * height) ++ evens ((data.drop (width * height)).take (width * height / 2)))
  rw [hlen] at ho
  simp only [ho]

/-- C1: for every NV12 frame passing the length check whose UV region is the
interleave `[U0, V0, ..., Un, Vn]` of a U plane and a V plane of equal length,
the chroma region of the normalized buffer is `U0, ..., Un, V0, ..., Vn`:
de-interleaving the interleave yields U plane followed by V plane. -/
theorem C1_nv12_deinterleave_roundtrip (width height : Nat) (Y U V : List Byte)
    (hY : Y.length = width * height)
    (hUV : U.length = V.length)
    (hlen : U.length + V.length = width * height / 2) :
    nv12_to_yuv420 width height (Y ++ interleave U V) = .ok (Y ++ U ++ V) := by
  have hil : (interleave U V).length = U.length + V.length := length_interleave U V hUV
  have h : width * height + width * height / 2 ≤ (Y ++ interleave U V).length := by
    rw [List.length_append, hY, hil, hlen]
  rw [nv12_to_yuv420_ok width height _ h]
  have htake : (Y ++ interleave U V).take (width * height) = Y :=
    List.take_left' hY
  have hdrop : (Y ++ interleave U V).drop (width * height) = interleave U V :=
    List.drop_left' hY
  have htake2 : (interleave U V).take (width * height / 2) = interleave U V :=
    List.take_of_length_le (by rw [hil, hlen])
  rw [htake, hdrop, htake2, evens_interleave U V hUV, odds_interleave U V hUV]

/-- Witness for C1 at width 2, height 2, Y = [9, 9, 9, 9], U = [1], V = [2]. -/
theorem C1_witness :
    ([9, 9, 9, 9] : List Byte).length = 2 * 2 ∧
    ([1] : List Byte).length = ([2] : List Byte).length ∧
    ([1] : List Byte).length + ([2] : List Byte).length = 2 * 2 / 2 ∧
    nv12_to_yuv420 2 2 ([9, 9, 9, 9] ++ interleave [1] [2]) =
      .ok ([9, 9, 9, 9] ++ [1] ++ [2]) :=
  ⟨rfl, rfl, rfl, C1_nv12_deinterleave_roundtrip 2 2 [9, 9, 9, 9] [1] [2] rfl rfl rfl⟩

/-- The NV12 normalization fails with InsufficientData exactly when the buffer
is shorter than `y_size + uv_size`. -/
theorem nv12_to_yuv420_err (width height : Nat) (data : List Byte)
    (h : data.length < width * height + width * height / 2) :
    nv12_to_yuv420 width height data =
      .error (.insufficientData (width * height + width * height / 2) data.length) := by
  rw [nv12_to_yuv420]
  simp [h]

/-- The two NV12 models coincide whenever the usize sum does not overflow. -/
theorem nv12_to_yuv420_usize_eq (width height : Nat) (data : List Byte)
    (h : width * height + width * height / 2 < USIZE) :
    nv12_to_yuv420_usize width height data = nv12_to_yuv420 width height data := by
  have h1 : width * height % USIZE = width * height := Nat.mod_eq_of_lt (by omega)
  rw [nv12_to_yuv420_usize, nv12_to_yuv420]
  simp only [h1, Nat.mod_eq_of_lt h]

/-- When the usize sum does not overflow, the wrapped expected count is the
exact one. -/
theorem nv12TotalUsize_eq (width height : Nat)
    (h : width * height + width * height / 2 < USIZE) :
    nv12TotalUsize width height = width * height + width * height / 2 := by
  have h1 : width * height % USIZE = width * height := Nat.mod_eq_of_lt (by omega)
  rw [nv12TotalUsize, h1, Nat.mod_eq_of_lt h]

/-- Under usize semantics the NV12 normalization fails with InsufficientData,
carrying the wrapped expected count, exactly when the buffer is shorter than
that count. -/
theorem nv12_to_yuv420_usize_err (width height : Nat) (data : List Byte)
    (h : data.length < nv12TotalUsize width height) :
    nv12_to_yuv420_usize width height data =
      .error (.insufficientData (nv12TotalUsize width height) data.length) := by
  have h2 : data.length < (width * height % USIZE + width * height % USIZE / 2) % USIZE := h
  rw [nv12_to_yuv420_usize]
  simp only [h2, if_true]
  rfl

/-- A Rust slice either succeeds or panics. -/
theorem sliceRange_shape (data : List Byte) (lo hi : Nat) :
    sliceRange data lo hi = .ok ((data.drop lo).take (hi - lo)) ∨
    sliceRange data lo hi = .error .panicked := by
  rw [sliceRange]
  split
  · exact Or.inl rfl
  · exact Or.inr rfl

/-- The push loop either succeeds or panics on an out-of-bounds index. -/
theorem pushLoop_shape (plane : List Byte) :
    ∀ (idxs : List Nat) (acc : List Byte),
      (∃ out, pushLoop plane idxs acc = .ok out) ∨
      pushLoop plane idxs acc = .error .panicked
  | [], acc => Or.inl ⟨acc, rfl⟩
  | i :: rest, acc => by
    cases hg : plane.get? i with
    | none => simp only [pushLoop, hg]; simp
    | some b =>
      simp only [pushLoop, hg]
      exact pushLoop_shape plane rest (acc ++ [b])

/-- Every outcome of the NV12 normalization under usize semantics: success, a
panic, or the length-check InsufficientData with the wrapped expected count. -/
theorem nv12_to_yuv420_usize_shape (width height : Nat) (data : List Byte) :
    (∃ buf, nv12_to_yuv420_usize width height data = .ok buf) ∨
    nv12_to_yuv420_usize width height data = .error .panicked ∨
    (data.length < nv12TotalUsize width height ∧
      nv12_to_yuv420_usize width height data =
        .error (.insufficientData (nv12TotalUsize width height) data.length)) := by
  by_cases hlt : data.length < nv12TotalUsize width height
  · exact Or.inr (Or.inr ⟨hlt, nv12_to_yuv420_usize_err width height data hlt⟩)
  · have hlt2 : ¬ data.length
        < (width * height % USIZE + width * height % USIZE / 2) % USIZE := hlt
    rw [nv12_to_yuv420_usize]
    simp only [hlt2, if_false]
    rcases sliceRange_shape data 0 (width * height % USIZE) with hs1 | hs1
    · simp only [hs1]
      rcases sliceRange_shape data (width * height % USIZE)
          ((width * height % USIZE + width * height % USIZE / 2) % USIZE) with hs2 | hs2
      · simp only [hs2]
        rcases pushLoop_shape
            ((data.drop (width * height % USIZE)).take
              ((width * height % USIZE + width * height % USIZE / 2) % USIZE
                - width * height % USIZE))
            (rangeStepBy 0 (width * height % USIZE / 2) 2)
            ((data.drop 0).take (width * height % USIZE - 0)) with ⟨out1, hp1⟩ | hp1
        · simp only [hp1]
          rcases pushLoop_shape
              ((data.drop (width * height % USIZE)).take
                ((width * height % USIZE + width * height % USIZE / 2) % USIZE
                  - width * height % USIZE))
              (rangeStepBy 1 (width * height % USIZE / 2) 2) out1 with ⟨out2, hp2⟩ | hp2
          · simp only [hp2]
            simp
          · simp only [hp2]
            simp
        · simp only [hp1]
          simp
      · simp only [hs2]
        simp
    · simp only [hs1]
      simp

/-- In the overflow window a release build passes the wrapped length check and
then panics slicing the Y plane: if the buffer is at least the wrapped total
but shorter than y_size, the usize model panics. -/
theorem nv12_to_yuv420_usize_overflow_panics (width height : Nat) (data : List Byte)
    (hno : ¬ data.length < nv12TotalUsize width height)
    (hlt : data.length < width * height % USIZE) :
    nv12_to_yuv420_usize width height data = .error .panicked := by
  have hno2 : ¬ data.length
      < (width * height % USIZE + width * height % USIZE / 2) % USIZE := hno
  rw [nv12_to_yuv420_usize]
  simp only [hno2, if_false]
  have hs : sliceRange data 0 (width * height % USIZE) = .error .panicked := by
    rw [sliceRange, if_neg]
    intro hc
    exact absurd hc.2 (by omega)
  simp only [hs]

/-- The NV12 arm of the usize conversion, as a dispatch equation over explicit
record components. -/
theorem rgb_to_jpeg_usize_nv12_arm {α : Type} (hdr ihdr : Option α)
    (width height : Nat) (data : List Byte) (c : Compressor) :
    rgb_to_jpeg_usize ⟨hdr, some (.nv12 ⟨ihdr, width, height, data⟩)⟩ c =
      match nv12_to_yuv420_usize width height data with
      | .error e => .error e
      | .ok buf =>
        match c.compressYuvToVec
            { pixels := buf, width := width, align := 1,
              height := height, subsamp := .Sub2x2 } with
        | .ok d => .ok ⟨hdr, d⟩
        | .error e => .error (.encodeFailure e) := rfl

/-- C3 is false as stated at program-realizable u32 dimensions: for a
4099276461 x 3000000000 NV12 frame, y_size + uv_size = 18446744074500000000
exceeds 2^64 - 1 and the usize sum wraps to 790448384, so on a buffer of
790448384 bytes (strictly undersized for the claim) a release build passes the
length check and then panics slicing the Y plane, instead of returning
InsufficientData without crashing (a debug build panics at the addition). -/
theorem C3_counterexample :
    (List.replicate 790448384 (0 : Byte)).length
        < 4099276461 * 3000000000 + 4099276461 * 3000000000 / 2 ∧
    rgb_to_jpeg_usize (⟨Option.none, some (.nv12 ⟨Option.none, 4099276461, 3000000000,
        List.replicate 790448384 0⟩)⟩ : ImageRawAny Nat) okCompressor
      = .error .panicked := by
  constructor
  · rw [List.length_replicate]
    norm_num
  · have hp : nv12_to_yuv420_usize 4099276461 3000000000 (List.replicate 790448384 0)
        = .error .panicked := by
      apply nv12_to_yuv420_usize_overflow_panics
      · rw [List.length_replicate]
        norm_num [nv12TotalUsize, USIZE]
      · rw [List.length_replicate]
        norm_num [USIZE]
    rw [rgb_to_jpeg_usize_nv12_arm Option.none Option.none 4099276461 3000000000
      (List.replicate 790448384 0) okCompressor, hp]

/-- C3 amended: under the usize semantics of the program, an NV12 frame whose
buffer is shorter than the wrapped expected count (y_size + uv_size) mod 2^64
converts to InsufficientData carrying that count, for every compressor; when
y_size + uv_size does not overflow the count is exactly y_size + uv_size, and
concretely a 176x144 frame of length exactly 38016 passes the check and
encodes while one of length 38015 fails with InsufficientData 38016. -/
theorem C3_nv12_length_check :
    (∀ (α : Type) (hdr : Option α) (img : ImageNv12 α) (c : Compressor),
      img.data.length < nv12TotalUsize img.width img.height →
      rgb_to_jpeg_usize ⟨hdr, some (.nv12 img)⟩ c =
        .error (.insufficientData (nv12TotalUsize img.width img.height)
          img.data.length)) ∧
    (∀ (α : Type) (hdr : Option α) (img : ImageNv12 α) (c : Compressor),
      img.width * img.height + img.width * img.height / 2 < USIZE →
      img.data.length < img.width * img.height + img.width * img.height / 2 →
      rgb_to_jpeg_usize ⟨hdr, some (.nv12 img)⟩ c =
        .error (.insufficientData
          (img.width * img.height + img.width * img.height / 2) img.data.length)) ∧
    (∀ data : List Byte, data.length = 38016 →
      rgb_to_jpeg_usize (⟨Option.none, some (.nv12 ⟨Option.none, 176, 144, data⟩)⟩ :
        ImageRawAny Nat) okCompressor = .ok ⟨Option.none, [255, 216]⟩) ∧
    (∀ data : List Byte, data.length = 38015 →
      rgb_to_jpeg_usize (⟨Option.none, some (.nv12 ⟨Option.none, 176, 144, data⟩)⟩ :
        ImageRawAny Nat) okCompressor = .error (.insufficientData 38016 38015)) := by
  refine ⟨?_, ?_, ?_, ?_⟩
  · intro α hdr img c h
    obtain ⟨ihdr, w, hgt, d⟩ := img
    rw [rgb_to_jpeg_usize_nv12_arm, nv12_to_yuv420_usize_err w hgt d h]
  · intro α hdr img c hov hlt
    obtain ⟨ihdr, w, hgt, d⟩ := img
    have ht := nv12TotalUsize_eq w hgt hov
    have hlt2 : d.length < nv12TotalUsize w hgt := by
      rw [ht]
      exact hlt
    rw [rgb_to_jpeg_usize_nv12_arm, nv12_to_yuv420_usize_err w hgt d hlt2, ht]
  · intro data hd
    have hov : 176 * 144 + 176 * 144 / 2 < USIZE := by norm_num [USIZE]
    have h : 176 * 144 + 176 * 144 / 2 ≤ data.length := by
      simp only [hd]
      omega
    rw [rgb_to_jpeg_usize_nv12_arm Option.none Option.none 176 144 data okCompressor,
      nv12_to_yuv420_usize_eq 176 144 data hov, nv12_to_yuv420_ok 176 144 data h]
    rfl
  · intro data hd
    have hov : 176 * 144 + 176 * 144 / 2 < USIZE := by norm_num [USIZE]
    have h : data.length < 176 * 144 + 176 * 144 / 2 := by
      simp only [hd]
      omega
    rw [rgb_to_jpeg_usize_nv12_arm Option.none Option.none 176 144 data okCompressor,
      nv12_to_yuv420_usize_eq 176 144 data hov, nv12_to_yuv420_err 176 144 data h]
    simp only [hd]

/-- Witness for C3 (amended): a 1x1 NV12 frame with empty buffer fails the
check with the wrapped (here exact) count; an all-zero 176x144 frame of length
38016 encodes; one of length 38015 fails. -/
theorem C3_witness :
    (([] : List Byte).length < nv12TotalUsize 1 1) ∧
    rgb_to_jpeg_usize (⟨Option.none, some (.nv12 ⟨Option.none, 1, 1, []⟩)⟩ : ImageRawAny Nat)
        okCompressor
      = .error (.insufficientData (nv12TotalUsize 1 1) ([] : List Byte).length) ∧
    (1 * 1 + 1 * 1 / 2 < USIZE) ∧
    rgb_to_jpeg_usize (⟨Option.none, some (.nv12 ⟨Option.none, 176, 144,
        List.replicate 38016 0⟩)⟩ : ImageRawAny Nat) okCompressor
      = .ok ⟨Option.none, [255, 216]⟩ ∧
    rgb_to_jpeg_usize (⟨Option.none, some (.nv12 ⟨Option.none, 176, 144,
        List.replicate 38015 0⟩)⟩ : ImageRawAny Nat) okCompressor
      = .error (.insufficientData 38016 38015) :=
  ⟨by decide,
   C3_nv12_length_check.1 Nat Option.none ⟨Option.none, 1, 1, []⟩ okCompressor (by decide),
   by decide,
   C3_nv12_length_check.2.2.1 (List.replicate 38016 0) (List.length_replicate 38016 0),
   C3_nv12_length_check.2.2.2 (List.replicate 38015 0) (List.length_replicate 38015 0)⟩

/-- C2 is false as stated: only the NV12 arm validates the buffer length.  A
1x1 RGB888 frame with an empty buffer (shorter than the required
width * height * 3 bytes) is not rejected with InsufficientData; it is handed
to the encoder and converts successfully. -/
theorem C2_counterexample :
    (([] : List Byte).length < 1 * 1 * 3) ∧
    rgb_to_jpeg (⟨Option.none, some (.rgb888 ⟨Option.none, 1, 1, []⟩)⟩ : ImageRawAny Nat)
        okCompressor = .ok ⟨Option.none, [255, 216]⟩ :=
  ⟨by decide, rfl⟩

/-- C2 amended: under the usize semantics of the program, the core returns
InsufficientData exactly on the NV12 path when the buffer is shorter than the
wrapped expected count (y_size + uv_size) mod 2^64, carrying that count; every
other variant hands its buffer to the encoder without a core-level length
check. -/
theorem C2_insufficient_only_nv12 {α : Type} (frame : ImageRawAny α) (c : Compressor)
    (e g : Nat) :
    rgb_to_jpeg_usize frame c = .error (.insufficientData e g) ↔
      ∃ img : ImageNv12 α, frame.image = some (.nv12 img) ∧
        img.data.length < nv12TotalUsize img.width img.height ∧
        e = nv12TotalUsize img.width img.height ∧
        g = img.data.length := by
  obtain ⟨hdr, v⟩ := frame
  constructor
  · intro h
    match v with
    | Option.none => simp [rgb_to_jpeg_usize] at h
    | some (.rgb888 r) =>
      simp only [rgb_to_jpeg_usize] at h
      cases hc : c.compressToVec
          { pixels := r.data, width := r.width, pitch := r.width * 3,
            height := r.height, format := .RGB } <;>
        rw [hc] at h <;> simp at h
    | some (.rgba8888 r) =>
      simp only [rgb_to_jpeg_usize] at h
      cases hc : c.compressToVec
          { pixels := r.data, width := r.width, pitch := r.width * 4,
            height := r.height, format := .RGBA } <;>
        rw [hc] at h <;> simp at h
    | some (.yuv420 r) =>
      simp only [rgb_to_jpeg_usize] at h
      cases hc : c.compressYuvToVec
          { pixels := r.data, width := r.width, align := 1,
            height := r.height, subsamp := .Sub2x2 } <;>
        rw [hc] at h <;> simp at h
    | some (.yuv422 r) =>
      simp only [rgb_to_jpeg_usize] at h
      cases hc : c.compressYuvToVec
          { pixels := r.data, width := r.width, align := 1,
            height := r.height, subsamp := .Sub2x1 } <;>
        rw [hc] at h <;> simp at h
    | some (.yuv444 r) =>
      simp only [rgb_to_jpeg_usize] at h
      cases hc : c.compressYuvToVec
          { pixels := r.data, width := r.width, align := 1,
            height := r.height, subsamp := .none } <;>
        rw [hc] at h <;> simp at h
    | some (.nv12 r) =>
      simp only [rgb_to_jpeg_usize] at h
      rcases nv12_to_yuv420_usize_shape r.width r.height r.data with ⟨buf, hb⟩ | hb | ⟨hlt, hb⟩
      · simp only [hb] at h
        cases hc : c.compressYuvToVec
            { pixels := buf, width := r.width, align := 1,
              height := r.height, subsamp := .Sub2x2 } <;>
          rw [hc] at h <;> simp at h
      · simp only [hb] at h
        simp at h
      · simp only [hb] at h
        simp only [Except.error.injEq, ConvError.insufficientData.injEq] at h
        exact ⟨r, rfl, hlt, h.1.symm, h.2.symm⟩
  · rintro ⟨img, himg, hlt, he, hg⟩
    have hv : v = some (.nv12 img) := himg
    subst hv he hg
    simp only [rgb_to_jpeg_usize,
      nv12_to_yuv420_usize_err img.width img.height img.data hlt]

/-- C4 is false as stated when uv_size is odd: for a 1x2 NV12 frame
(y_size = 2, uv_size = 1, uv_size / 2 = 0) the normalized buffer has 3 bytes,
not the y_size + 2 * (uv_size / 2) = 2 bytes that "exactly uv_size / 2 U bytes
then uv_size / 2 V bytes" would give. -/
theorem C4_counterexample :
    nv12_to_yuv420 1 2 [1, 2, 3] = .ok [1, 2, 3] ∧
    (1 * 2) / 2 / 2 = 0 ∧
    1 * 2 + 2 * ((1 * 2) / 2 / 2) ≠ ([1, 2, 3] : List Byte).length :=
  ⟨rfl, rfl, by decide⟩

/-- C4 amended: for every NV12 frame passing the length check, the normalized
buffer is the unchanged Y plane, then the even-offset bytes of the UV region
(uv_size - uv_size / 2 of them, i.e. the ceiling of uv_size / 2), then the
odd-offset bytes (uv_size / 2 of them); its total length is exactly
y_size + uv_size. -/
theorem C4_normalized_layout (width height : Nat) (data : List Byte)
    (h : width * height + width * height / 2 ≤ data.length) :
    nv12_to_yuv420 width height data =
      .ok (data.take (width * height)
        ++ evens ((data.drop (width * height)).take (width * height / 2))
        ++ odds ((data.drop (width * height)).take (width * height / 2))) ∧
    (evens ((data.drop (width * height)).take (width * height / 2))).length
      = width * height / 2 - width * height / 2 / 2 ∧
    (odds ((data.drop (width * height)).take (width * height / 2))).length
      = width * height / 2 / 2 ∧
    (data.take (width * height)
        ++ evens ((data.drop (width * height)).take (width * height / 2))
        ++ odds ((data.drop (width * height)).take (width * height / 2))).length
      = width * height + width * height / 2 := by
  have hlen : ((data.drop (width * height)).take (width * height / 2)).length
      = width * height / 2 := by
    simp [List.length_take, List.length_drop]
    omega
  refine ⟨nv12_to_yuv420_ok width height data h, ?_, ?_, ?_⟩
  · rw [evens_length, hlen]; omega
  · rw [odds_length, hlen]
  · simp only [List.length_append, evens_length, odds_length, hlen, List.length_take]
    omega

/-- Witness for C4 (amended) at a 1x2 NV12 frame (odd uv_size) with buffer
[1, 2, 3]. -/
theorem C4_witness :
    (1 * 2 + 1 * 2 / 2 ≤ ([1, 2, 3] : List Byte).length) ∧
    (nv12_to_yuv420 1 2 [1, 2, 3] =
      .ok (([1, 2, 3] : List Byte).take (1 * 2)
        ++ evens ((([1, 2, 3] : List Byte).drop (1 * 2)).take (1 * 2 / 2))
        ++ odds ((([1, 2, 3] : List Byte).drop (1 * 2)).take (1 * 2 / 2))) ∧
    (evens ((([1, 2, 3] : List Byte).drop (1 * 2)).take (1 * 2 / 2))).length
      = 1 * 2 / 2 - 1 * 2 / 2 / 2 ∧
    (odds ((([1, 2, 3] : List Byte).drop (1 * 2)).take (1 * 2 / 2))).length
      = 1 * 2 / 2 / 2 ∧
    (([1, 2, 3] : List Byte).take (1 * 2)
        ++ evens ((([1, 2, 3] : List Byte).drop (1 * 2)).take (1 * 2 / 2))
        ++ odds ((([1, 2, 3] : List Byte).drop (1 * 2)).take (1 * 2 / 2))).length
      = 1 * 2 + 1 * 2 / 2) :=
  ⟨by decide, C4_normalized_layout 1 2 [1, 2, 3] (by decide)⟩

/-- C5: whenever a conversion succeeds, the output record carries exactly the
input frame top-level header (pass-through, never mutated). -/
theorem C5_header_passthrough {α : Type} (frame : ImageRawAny α) (c : Compressor)
    (jpeg : ImageJpeg α) (h : rgb_to_jpeg frame c = .ok jpeg) :
    jpeg.header = frame.header := by
  obtain ⟨hdr, v⟩ := frame
  match v with
  | Option.none => simp [rgb_to_jpeg] at h
  | some (.rgb888 r) =>
    simp only [rgb_to_jpeg] at h
    cases hc : c.compressToVec
        { pixels := r.data, width := r.width, pitch := r.width * 3,
          height := r.height, format := .RGB } <;>
      rw [hc] at h <;> simp at h
    rw [← h]
  | some (.rgba8888 r) =>
    simp only [rgb_to_jpeg] at h
    cases hc : c.compressToVec
        { pixels := r.data, width := r.width, pitch := r.width * 4,
          height := r.height, format := .RGBA } <;>
      rw [hc] at h <;> simp at h
    rw [← h]
  | some (.yuv420 r) =>
    simp only [rgb_to_jpeg] at h
    cases hc : c.compressYuvToVec
        { pixels := r.data, width := r.width, align := 1,
          height := r.height, subsamp := .Sub2x2 } <;>
      rw [hc] at h <;> simp at h
    rw [← h]
  | some (.yuv422 r) =>
    simp only [rgb_to_jpeg] at h
    cases hc : c.compressYuvToVec
        { pixels := r.data, width := r.width, align := 1,
          height := r.height, subsamp := .Sub2x1 } <;>
      rw [hc] at h <;> simp at h
    rw [← h]
  | some (.yuv444 r) =>
    simp only [rgb_to_jpeg] at h
    cases hc : c.compressYuvToVec
        { pixels := r.data, width := r.width, align := 1,
          height := r.height, subsamp := .none } <;>
      rw [hc] at h <;> simp at h
    rw [← h]
  | some (.nv12 r) =>
    simp only [rgb_to_jpeg] at h
    cases hn : nv12_to_yuv420 r.width r.height r.data <;> simp only [hn] at h
    · simp at h
    · rename_i buf
      cases hc : c.compressYuvToVec
          { pixels := buf, width := r.width, align := 1,
            height := r.height, subsamp := .Sub2x2 } <;>
        rw [hc] at h <;> simp at h
      rw [← h]

/-- Witness for C5 at a 1x1 RGB888 frame with header value 5. -/
theorem C5_witness :
    rgb_to_jpeg (⟨some 5, some (.rgb888 ⟨Option.none, 1, 1, [0, 0, 0]⟩)⟩ : ImageRawAny Nat)
        okCompressor = .ok ⟨some 5, [255, 216]⟩ ∧
    (ImageJpeg.mk (some 5) [255, 216]).header =
      (ImageRawAny.mk (some 5)
        (some (.rgb888 ⟨Option.none, 1, 1, [0, 0, 0]⟩)) : ImageRawAny Nat).header :=
  ⟨rfl, C5_header_passthrough _ okCompressor _ rfl⟩

/-- C6: a frame whose variant is absent converts to UnsupportedLayout for every
compressor and every header, so the encoder is never consulted. -/
theorem C6_unsupported_layout {α : Type} (hdr : Option α) (c : Compressor) :
    rgb_to_jpeg (⟨hdr, Option.none⟩ : ImageRawAny α) c = .error .unsupportedLayout := rfl

/-- C7: the encoding path and geometry are selected exactly by variant: RGB888
and RGBA8888 use the packed path with pitch width * 3 resp. width * 4 and the
matching pixel format; YUV420, YUV422, YUV444 and normalized NV12 use the
planar path with align 1 and subsampling 2x2, 2x1, none and 2x2. -/
theorem C7_dispatch {α : Type} (hdr : Option α) (c : Compressor) :
    (∀ r : ImageRgb888 α, rgb_to_jpeg ⟨hdr, some (.rgb888 r)⟩ c =
      match c.compressToVec
          { pixels := r.data, width := r.width, pitch := r.width * 3,
            height := r.height, format := .RGB } with
      | .ok d => .ok ⟨hdr, d⟩
      | .error e => .error (.encodeFailure e)) ∧
    (∀ r : ImageRgba8888 α, rgb_to_jpeg ⟨hdr, some (.rgba8888 r)⟩ c =
      match c.compressToVec
          { pixels := r.data, width := r.width, pitch := r.width * 4,
            height := r.height, format := .RGBA } with
      | .ok d => .ok ⟨hdr, d⟩
      | .error e => .error (.encodeFailure e)) ∧
    (∀ r : ImageYuv420 α, rgb_to_jpeg ⟨hdr, some (.yuv420 r)⟩ c =
      match c.compressYuvToVec
          { pixels := r.data, width := r.width, align := 1,
            height := r.height, subsamp := .Sub2x2 } with
      | .ok d => .ok ⟨hdr, d⟩
      | .error e => .error (.encodeFailure e)) ∧
    (∀ r : ImageYuv422 α, rgb_to_jpeg ⟨hdr, some (.yuv422 r)⟩ c =
      match c.compressYuvToVec
          { pixels := r.data, width := r.width, align := 1,
            height := r.height, subsamp := .Sub2x1 } with
      | .ok d => .ok ⟨hdr, d⟩
      | .error e => .error (.encodeFailure e)) ∧
    (∀ r : ImageYuv444 α, rgb_to_jpeg ⟨hdr, some (.yuv444 r)⟩ c =
      match c.compressYuvToVec
          { pixels := r.data, width := r.width, align := 1,
            height := r.height, subsamp := .none } with
      | .ok d => .ok ⟨hdr, d⟩
      | .error e => .error (.encodeFailure e)) ∧
    (∀ r : ImageNv12 α, rgb_to_jpeg ⟨hdr, some (.nv12 r)⟩ c =
      match nv12_to_yuv420 r.width r.height r.data with
      | .error e => .error e
      | .ok buf =>
        match c.compressYuvToVec
            { pixels := buf, width := r.width, align := 1,
              height := r.height, subsamp := .Sub2x2 } with
        | .ok d => .ok ⟨hdr, d⟩
        | .error e => .error (.encodeFailure e)) :=
  ⟨fun _ => rfl, fun _ => rfl, fun _ => rfl, fun _ => rfl, fun _ => rfl, fun _ => rfl⟩

/-- C8: for an NV12 frame whose buffer length is at least y_size + uv_size,
normalization succeeds, so every index used by the de-interleave loops was in
bounds and the panic branch of the embedding is unreachable; the conversion
never produces the panic value either. -/
theorem C8_no_panic {α : Type} (hdr : Option α) (img : ImageNv12 α) (c : Compressor)
    (h : img.width * img.height + img.width * img.height / 2 ≤ img.data.length) :
    (∃ buf, nv12_to_yuv420 img.width img.height img.data = .ok buf) ∧
    nv12_to_yuv420 img.width img.height img.data ≠ .error .panicked ∧
    rgb_to_jpeg ⟨hdr, some (.nv12 img)⟩ c ≠ .error .panicked := by
  have hok := nv12_to_yuv420_ok img.width img.height img.data h
  refine ⟨⟨_, hok⟩, by rw [hok]; simp, ?_⟩
  simp only [rgb_to_jpeg, hok]
  cases hc : c.compressYuvToVec
      { pixels := img.data.take (img.width * img.height)
          ++ evens ((img.data.drop (img.width * img.height)).take (img.width * img.height / 2))
          ++ odds ((img.data.drop (img.width * img.height)).take (img.width * img.height / 2)),
        width := img.width, align := 1, height := img.height, subsamp := .Sub2x2 } <;>
    simp

/-- Witness for C8 at a 1x1 NV12 frame with buffer [5, 9]. -/
theorem C8_witness :
    (1 * 1 + 1 * 1 / 2 ≤ ([5, 9] : List Byte).length) ∧
    ((∃ buf, nv12_to_yuv420 1 1 [5, 9] = .ok buf) ∧
     nv12_to_yuv420 1 1 [5, 9] ≠ .error .panicked ∧
     rgb_to_jpeg (⟨Option.none, some (.nv12 ⟨Option.none, 1, 1, [5, 9]⟩)⟩ : ImageRawAny Nat)
        okCompressor ≠ .error .panicked) :=
  ⟨by decide,
   C8_no_panic Option.none ⟨Option.none, 1, 1, [5, 9]⟩ okCompressor (by decide)⟩

/-- C9: the output header is taken from the top-level frame record only; the
header embedded in the variant record is ignored (changing it never changes
the result), and on a frame whose embedded header (some 2) differs from the
top-level one (some 1) the output carries the top-level header. -/
theorem C9_variant_header_ignored :
    (∀ (α : Type) (frame : ImageRawAny α) (c : Compressor) (h2 : Option α),
      rgb_to_jpeg (setVariantHeader frame h2) c = rgb_to_jpeg frame c) ∧
    rgb_to_jpeg (⟨some 1, some (.rgb888 ⟨some 2, 1, 1, [7, 7, 7]⟩)⟩ : ImageRawAny Nat)
        okCompressor = .ok ⟨some 1, [255, 216]⟩ ∧
    (some 1 : Option Nat) ≠ some 2 := by
  refine ⟨?_, rfl, by decide⟩
  intro α frame c h2
  obtain ⟨hdr, v⟩ := frame
  match v with
  | Option.none => rfl
  | some (.rgb888 r) => rfl
  | some (.rgba8888 r) => rfl
  | some (.yuv420 r) => rfl
  | some (.yuv422 r) => rfl
  | some (.yuv444 r) => rfl
  | some (.nv12 r) => rfl

/-- Witness for C9: changing the embedded variant header of a concrete RGB888
frame does not change the conversion result. -/
theorem C9_witness :
    rgb_to_jpeg (setVariantHeader
        (⟨some 1, some (.rgb888 ⟨some 2, 1, 1, [7, 7, 7]⟩)⟩ : ImageRawAny Nat) (some 9))
        okCompressor
      = rgb_to_jpeg (⟨some 1, some (.rgb888 ⟨some 2, 1, 1, [7, 7, 7]⟩)⟩ : ImageRawAny Nat)
          okCompressor :=
  C9_variant_header_ignored.1 Nat ⟨some 1, some (.rgb888 ⟨some 2, 1, 1, [7, 7, 7]⟩)⟩
    okCompressor (some 9)

/-- C10: an NV12 frame with at least y_size + uv_size bytes passes the length
check; only the first y_size + uv_size bytes are read, so the normalized
buffer and the conversion result coincide with those of the frame truncated to
exactly y_size + uv_size bytes, and InsufficientData is never returned. -/
theorem C10_trailing_bytes_ignored {α : Type} (hdr ihdr : Option α)
    (width height : Nat) (data : List Byte) (c : Compressor)
    (h : width * height + width * height / 2 ≤ data.length) :
    nv12_to_yuv420 width height (data.take (width * height + width * height / 2))
      = nv12_to_yuv420 width height data ∧
    rgb_to_jpeg ⟨hdr, some (.nv12 ⟨ihdr, width, height,
        data.take (width * height + width * height / 2)⟩)⟩ c
      = rgb_to_jpeg ⟨hdr, some (.nv12 ⟨ihdr, width, height, data⟩)⟩ c ∧
    ∀ e g, rgb_to_jpeg ⟨hdr, some (.nv12 ⟨ihdr, width, height, data⟩)⟩ c
      ≠ .error (.insufficientData e g) := by
  have hlen2 : width * height + width * height / 2
      ≤ (data.take (width * height + width * height / 2)).length := by
    rw [List.length_take]
    omega
  have e1 : (data.take (width * height + width * height / 2)).take (width * height)
      = data.take (width * height) := by
    rw [List.take_take]
    congr 1
    omega
  have e2 : ((data.take (width * height + width * height / 2)).drop (width * height)).take
        (width * height / 2)
      = (data.drop (width * height)).take (width * height / 2) := by
    rw [← List.take_drop, List.take_take, Nat.min_self]
  have h1 : nv12_to_yuv420 width height (data.take (width * height + width * height / 2))
      = nv12_to_yuv420 width height data := by
    rw [nv12_to_yuv420_ok width height data h,
      nv12_to_yuv420_ok width height _ hlen2, e1, e2]
  refine ⟨h1, ?_, ?_⟩
  · simp only [rgb_to_jpeg]
    rw [h1]
  · intro e g hne
    simp only [rgb_to_jpeg, nv12_to_yuv420_ok width height data h] at hne
    cases hc : c.compressYuvToVec
        { pixels := data.take (width * height)
            ++ evens ((data.drop (width * height)).take (width * height / 2))
            ++ odds ((data.drop (width * height)).take (width * height / 2)),
          width := width, align := 1, height := height, subsamp := .Sub2x2 } <;>
      rw [hc] at hne <;> simp at hne

/-- Witness for C10 at a 1x1 NV12 frame with buffer [5, 9] (one trailing
byte beyond the required single Y byte). -/
theorem C10_witness :
    (1 * 1 + 1 * 1 / 2 ≤ ([5, 9] : List Byte).length) ∧
    (nv12_to_yuv420 1 1 (([5, 9] : List Byte).take (1 * 1 + 1 * 1 / 2))
      = nv12_to_yuv420 1 1 [5, 9] ∧
    rgb_to_jpeg (⟨Option.none, some (.nv12 ⟨Option.none, 1, 1,
        (([5, 9] : List Byte).take (1 * 1 + 1 * 1 / 2))⟩)⟩ : ImageRawAny Nat) okCompressor
      = rgb_to_jpeg (⟨Option.none, some (.nv12 ⟨Option.none, 1, 1, [5, 9]⟩)⟩ :
          ImageRawAny Nat) okCompressor ∧
    ∀ e g, rgb_to_jpeg (⟨Option.none, some (.nv12 ⟨Option.none, 1, 1, [5, 9]⟩)⟩ :
        ImageRawAny Nat) okCompressor ≠ .error (.insufficientData e g)) :=
  ⟨by decide,
   C10_trailing_bytes_ignored Option.none Option.none 1 1 [5, 9] okCompressor (by decide)⟩

end RawToJpeg
